import Mathlib

/-!
Verification of the trip-planning core of `api/views.py` (log_track_be).

The two pure functions of the module are embedded over exact rationals:
`_calculate_stops` (stop planning) and `_generate_daily_logs` (duty
scheduling).  Python's float arithmetic is modelled by `ℚ`; Python's
2-decimal `round` is modelled by round-half-to-even on rationals.  The
scheduler's `while` loop is modelled with an explicit fuel parameter:
`none` means the loop has not finished within the given number of
iterations, so termination of the source loop on an input is exactly
"some fuel yields `some`".
-/

/-- Rounding of a rational to the nearest integer, ties to even, the
rounding mode of Python's builtin `round`. -/
def rndHalfEven (x : ℚ) : ℤ :=
  let n := ⌊x⌋
  let f := x - n
  if f < 1/2 then n
  else if 1/2 < f then n + 1
  else if n % 2 = 0 then n else n + 1

/-- Python's `round(x, 2)`: round to two decimal places. -/
def round2 (x : ℚ) : ℚ := (rndHalfEven (100 * x) : ℚ) / 100

/-- Embedding of the module-level `STATUS_Y_POSITIONS` dict of views.py
(keys absent from the dict are never looked up by the code). -/
def STATUS_Y_POSITIONS : String → ℕ
  | "OffDuty" => 0
  | "Sleeper" => 1
  | "Driving" => 2
  | "OnDuty" => 3
  | _ => 0

/-- One log entry dict `{start, end, status, y_position}` as produced by
`_generate_daily_logs`. -/
structure LogEntry where
  start : ℚ
  end_ : ℚ
  status : String
  y_position : ℕ

/-- Body of one iteration of the per-day `while` loop of
`_generate_daily_logs` (views.py lines 130-171): builds one day's entry
list and pairs it with the updated remaining driving-hours counter. -/
def generateDay (first_day : Bool) (driving_hours_total : ℚ) :
    List LogEntry × ℚ :=
  let on_duty : ℚ := if first_day then 1 else 0
  let t0 : ℚ := 0
  let e1 : List LogEntry :=
    if on_duty ≠ 0 then
      [⟨t0, t0 + on_duty, "OnDuty", STATUS_Y_POSITIONS "OnDuty"⟩]
    else []
  let t1 : ℚ := if on_duty ≠ 0 then t0 + on_duty else t0
  let driving : ℚ := round2 (min 11 driving_hours_total)
  let e2 : List LogEntry :=
    if 0 < driving then
      e1 ++ [⟨t1, t1 + driving, "Driving", STATUS_Y_POSITIONS "Driving"⟩]
    else e1
  let t2 : ℚ := if 0 < driving then t1 + driving else t1
  let off_duty : ℚ := max 0 (24 - (10 + driving + on_duty))
  let e3 : List LogEntry :=
    if 0 < off_duty then
      e2 ++ [⟨t2, t2 + off_duty, "OffDuty", STATUS_Y_POSITIONS "OffDuty"⟩]
    else e2
  let t3 : ℚ := if 0 < off_duty then t2 + off_duty else t2
  (e3 ++ [⟨t3, 24, "Sleeper", STATUS_Y_POSITIONS "Sleeper"⟩],
   driving_hours_total - driving)

/-- The `while driving_hours_total > 0` loop of `_generate_daily_logs`,
with explicit fuel; `none` means the loop did not exit within `fuel`
iterations. -/
def genLoop : ℕ → Bool → ℚ → Option (List (List LogEntry))
  | 0, _, driving_hours_total =>
      if 0 < driving_hours_total then none else some []
  | fuel + 1, first_day, driving_hours_total =>
      if 0 < driving_hours_total then
        let p := generateDay first_day driving_hours_total
        (genLoop fuel false p.2).map (p.1 :: ·)
      else some []

/-- Embedding of `_generate_daily_logs(distance_miles, cycle_used)`
(views.py lines 108-172), with explicit loop fuel. -/
def generate_daily_logs (fuel : ℕ) (distance_miles cycle_used : ℚ) :
    Option (List (List LogEntry)) :=
  let driving_hours_total := distance_miles / 50
  let available_hours := max 0 (70 - cycle_used)
  let total_hours_needed :=
    driving_hours_total + (if 0 < driving_hours_total then 1 else 0)
  if available_hours ≤ 1 then some []
  else
    genLoop fuel true
      (if total_hours_needed > available_hours then max 0 (available_hours - 1)
       else driving_hours_total)

/-- One stop dict `{type, name, lat, lng}` as produced by
`_calculate_stops`. -/
structure RouteStop where
  type : String
  name : String
  lat : ℚ
  lng : ℚ

/-- Embedding of `_calculate_stops(coords, distance_miles)` (views.py
lines 92-106).  `coords` is the geocoded `[current, pickup, dropoff]`
list of `(lng, lat)` pairs; the Python list indexing `coords[1]`,
`coords[2]` is modelled with `getD` (the caller always passes three
coordinates). -/
def calculate_stops (coords : List (ℚ × ℚ)) (distance_miles : ℚ) :
    List RouteStop :=
  let c1 := coords.getD 1 (0, 0)
  let c2 := coords.getD 2 (0, 0)
  let stops : List RouteStop :=
    [⟨"pickup", "Pickup Location", c1.2, c1.1⟩,
     ⟨"dropoff", "Dropoff Location", c2.2, c2.1⟩]
  let num_fuel_stops : ℕ := (⌊distance_miles / 1000⌋).toNat
  stops ++ (List.range num_fuel_stops).map (fun i =>
    ⟨"fuel", "Fuel Stop " ++ toString (i + 1), c1.2, c1.1⟩)

/-- Sum of `end - start` over a list of entries. -/
def sumDur (day : List LogEntry) : ℚ :=
  (day.map (fun e => e.end_ - e.start)).sum

/-- Contiguity check: the first entry starts at `t`, each entry starts
where the previous one ended, and the last entry ends at hour 24. -/
def chainB : ℚ → List LogEntry → Bool
  | t, [] => decide (t = 24)
  | t, e :: es => decide (e.start = t) && chainB e.end_ es

/-- Total duration of the Driving entries of one day. -/
def drivingDur (day : List LogEntry) : ℚ :=
  (day.map (fun e => if e.status = "Driving" then e.end_ - e.start else 0)).sum

/-- Total Driving time over a whole schedule. -/
def sumDriving (days : List (List LogEntry)) : ℚ :=
  (days.map drivingDur).sum

/-- The possibly-capped total driving requirement computed by views.py
lines 117-125 before the loop starts. -/
def cappedNeed (distance_miles cycle_used : ℚ) : ℚ :=
  let driving_hours_total := distance_miles / 50
  let available_hours := max 0 (70 - cycle_used)
  let total_hours_needed :=
    driving_hours_total + (if 0 < driving_hours_total then 1 else 0)
  if total_hours_needed > available_hours then max 0 (available_hours - 1)
  else driving_hours_total

/-- Canonical shape of one emitted day whose rounded driving amount is
`dr`: the OffDuty filler always runs to hour 14 and the Sleeper block
covers hours 14-24. -/
def mkEntries (first_day : Bool) (dr : ℚ) : List LogEntry :=
  let ob : ℚ := if first_day then 1 else 0
  (if first_day then [⟨0, ob, "OnDuty", 3⟩] else []) ++
    (if 0 < dr then [⟨ob, ob + dr, "Driving", 2⟩] else []) ++
    [⟨ob + dr, 14, "OffDuty", 0⟩, ⟨14, 24, "Sleeper", 1⟩]

/-! Basic facts about the rounding helper. -/

lemma rndHalfEven_le (x : ℚ) : (rndHalfEven x : ℚ) ≤ x + 1/2 := by
  simp only [rndHalfEven]
  have h1 : ((⌊x⌋ : ℤ) : ℚ) ≤ x := Int.floor_le x
  split_ifs with hf hg he <;> push_cast <;> linarith

lemma le_rndHalfEven (x : ℚ) : x - 1/2 ≤ (rndHalfEven x : ℚ) := by
  simp only [rndHalfEven]
  have h2 : x < (⌊x⌋ : ℚ) + 1 := Int.lt_floor_add_one x
  split_ifs with hf hg he <;> push_cast <;> linarith

lemma rndHalfEven_nonneg (x : ℚ) (hx : 0 ≤ x) : 0 ≤ rndHalfEven x := by
  simp only [rndHalfEven]
  have h0 : 0 ≤ ⌊x⌋ := Int.floor_nonneg.mpr hx
  split_ifs <;> omega

lemma rndHalfEven_le_int (x : ℚ) (n : ℤ) (hx : x ≤ (n : ℚ)) :
    rndHalfEven x ≤ n := by
  have hfl : ⌊x⌋ ≤ n := by
    have := Int.floor_mono hx
    simpa using this
  simp only [rndHalfEven]
  split_ifs with hf hg he
  · exact hfl
  · -- here 1/2 < x - ⌊x⌋, so ⌊x⌋ < x ≤ n, hence ⌊x⌋ < n
    have hlt : ((⌊x⌋ : ℤ) : ℚ) < (n : ℚ) := by linarith
    have : ⌊x⌋ < n := by exact_mod_cast hlt
    omega
  · exact hfl
  · have hlt : ((⌊x⌋ : ℤ) : ℚ) < (n : ℚ) := by
      have hhalf : x - (⌊x⌋ : ℚ) = 1/2 := le_antisymm (not_lt.mp hg) (not_lt.mp hf)
      linarith
    have : ⌊x⌋ < n := by exact_mod_cast hlt
    omega

lemma rndHalfEven_eq_zero (x : ℚ) (h0 : 0 < x) (h2 : x ≤ 1/2) :
    rndHalfEven x = 0 := by
  have hfl : ⌊x⌋ = 0 := by
    rw [Int.floor_eq_zero_iff]
    exact Set.mem_Ico.mpr ⟨h0.le, by linarith⟩
  simp only [rndHalfEven, hfl]
  split_ifs with hf hg he
  · rfl
  · exact absurd hg (by push_cast; linarith)
  · rfl
  · exact absurd rfl he

lemma round2_le (x : ℚ) : round2 x ≤ x + 1/200 := by
  unfold round2
  have := rndHalfEven_le (100 * x)
  linarith

lemma le_round2 (x : ℚ) : x - 1/200 ≤ round2 x := by
  unfold round2
  have := le_rndHalfEven (100 * x)
  linarith

lemma round2_nonneg (x : ℚ) (hx : 0 ≤ x) : 0 ≤ round2 x := by
  unfold round2
  have : (0 : ℚ) ≤ (rndHalfEven (100 * x) : ℚ) := by
    exact_mod_cast rndHalfEven_nonneg (100 * x) (by linarith)
  linarith

lemma round2_le_eleven (x : ℚ) (hx : x ≤ 11) : round2 x ≤ 11 := by
  unfold round2
  have h : rndHalfEven (100 * x) ≤ 1100 :=
    rndHalfEven_le_int (100 * x) 1100 (by push_cast; linarith)
  have h' : ((rndHalfEven (100 * x) : ℤ) : ℚ) ≤ 1100 := by exact_mod_cast h
  linarith

lemma round2_eq_zero (x : ℚ) (h0 : 0 < x) (h2 : x ≤ 1/200) : round2 x = 0 := by
  unfold round2
  rw [rndHalfEven_eq_zero (100 * x) (by linarith) (by linarith)]
  norm_num

lemma round2_eleven : round2 (11 : ℚ) = 11 := by
  unfold round2
  have h : (100 * (11 : ℚ)) = ((1100 : ℤ) : ℚ) := by norm_num
  rw [h]
  simp only [rndHalfEven, Int.floor_intCast]
  norm_num

/-! Shape of one loop iteration. -/

lemma generateDay_snd (b : Bool) (r : ℚ) :
    (generateDay b r).2 = r - round2 (min 11 r) := rfl

lemma generateDay_fst (b : Bool) (r : ℚ) (hr : 0 < r) :
    (generateDay b r).1 = mkEntries b (round2 (min 11 r)) := by
  have hmin0 : (0:ℚ) ≤ min 11 r := le_min (by norm_num) hr.le
  have hdr0 : 0 ≤ round2 (min 11 r) := round2_nonneg _ hmin0
  have hdr11 : round2 (min 11 r) ≤ 11 := round2_le_eleven _ (min_le_left _ _)
  simp only [generateDay, mkEntries]
  generalize hg : round2 (min 11 r) = dr
  rw [hg] at hdr0 hdr11
  cases b
  · by_cases hdp : 0 < dr
    · have h1 : (0:ℚ) ⊔ (24 - (10 + dr)) = 24 - (10 + dr) :=
        sup_eq_right.mpr (by linarith)
      have hck : (10:ℚ) + dr < 24 := by linarith
      simp [hdp, hck, h1, STATUS_Y_POSITIONS]
      ring
    · have hdp0 : dr = 0 := le_antisymm (not_lt.mp hdp) hdr0
      have h2 : (0:ℚ) ⊔ (24 - 10) = 14 := by
        rw [sup_eq_right.mpr (by norm_num : (0:ℚ) ≤ 24 - 10)]; norm_num
      have hck : (10:ℚ) < 24 := by norm_num
      simp [hdp, hdp0, h2, hck, STATUS_Y_POSITIONS]
  · by_cases hdp : 0 < dr
    · have h3 : (0:ℚ) ⊔ (13 - dr) = 13 - dr := sup_eq_right.mpr (by linarith)
      have hck : (11:ℚ) + dr < 24 := by linarith
      simp [hdp, hck, h3, STATUS_Y_POSITIONS]
      split_ifs with hsp
      · rw [show (0:ℚ) ⊔ (24 - (10 + dr + 1)) = 24 - (10 + dr + 1) from
          sup_eq_right.mpr (by linarith)]
        simp
        ring
      · exact absurd (show (10:ℚ) + dr + 1 < 24 by linarith) hsp
    · have hdp0 : dr = 0 := le_antisymm (not_lt.mp hdp) hdr0
      have h4 : (0:ℚ) ⊔ (13:ℚ) = 13 := sup_eq_right.mpr (by norm_num)
      have hck : (11:ℚ) < 24 := by norm_num
      simp [hdp, hdp0, h4, hck, STATUS_Y_POSITIONS]
      norm_num

/-! Properties of one emitted day. -/

lemma mkEntries_chainB (b : Bool) (dr : ℚ) (h0 : 0 ≤ dr) :
    chainB 0 (mkEntries b dr) = true := by
  cases b
  · by_cases hdp : 0 < dr
    · simp [mkEntries, chainB, hdp]
    · have hdp0 : dr = 0 := le_antisymm (not_lt.mp hdp) h0
      simp [mkEntries, chainB, hdp, hdp0]
  · by_cases hdp : 0 < dr
    · simp [mkEntries, chainB, hdp]
    · have hdp0 : dr = 0 := le_antisymm (not_lt.mp hdp) h0
      simp [mkEntries, chainB, hdp, hdp0]

lemma mkEntries_sumDur (b : Bool) (dr : ℚ) (h0 : 0 ≤ dr) :
    sumDur (mkEntries b dr) = 24 := by
  cases b
  · by_cases hdp : 0 < dr
    · simp [mkEntries, sumDur, hdp]
    · have hdp0 : dr = 0 := le_antisymm (not_lt.mp hdp) h0
      simp [mkEntries, sumDur, hdp, hdp0]
  · by_cases hdp : 0 < dr
    · simp [mkEntries, sumDur, hdp]
      ring
    · have hdp0 : dr = 0 := le_antisymm (not_lt.mp hdp) h0
      simp [mkEntries, sumDur, hdp, hdp0]

lemma mkEntries_drivingDur (b : Bool) (dr : ℚ) (h0 : 0 ≤ dr) :
    drivingDur (mkEntries b dr) = dr := by
  cases b
  · by_cases hdp : 0 < dr
    · simp [mkEntries, drivingDur, hdp]
    · have hdp0 : dr = 0 := le_antisymm (not_lt.mp hdp) h0
      simp [mkEntries, drivingDur, hdp, hdp0]
  · by_cases hdp : 0 < dr
    · simp [mkEntries, drivingDur, hdp]
    · have hdp0 : dr = 0 := le_antisymm (not_lt.mp hdp) h0
      simp [mkEntries, drivingDur, hdp, hdp0]

lemma mkEntries_driving_le (b : Bool) (dr : ℚ) (h11 : dr ≤ 11) :
    ∀ e ∈ mkEntries b dr, e.status = "Driving" → e.end_ - e.start ≤ 11 := by
  intro e he hst
  cases b
  · by_cases hdp : 0 < dr
    · simp [mkEntries, hdp] at he
      rcases he with rfl | rfl | rfl <;> simp_all
    · simp [mkEntries, hdp] at he
      rcases he with rfl | rfl <;> simp_all
  · by_cases hdp : 0 < dr
    · simp [mkEntries, hdp] at he
      rcases he with rfl | rfl | rfl | rfl <;> simp_all
    · simp [mkEntries, hdp] at he
      rcases he with rfl | rfl | rfl <;> simp_all

lemma mkEntries_sleeper (b : Bool) (dr : ℚ) :
    ∃ e ∈ mkEntries b dr, e.status = "Sleeper" ∧ e.end_ - e.start = 10 ∧
      e.end_ = 24 := by
  refine ⟨⟨14, 24, "Sleeper", 1⟩, ?_, ?_⟩
  · simp [mkEntries]
  · norm_num

lemma mkEntries_no_onduty (dr : ℚ) :
    ∀ e ∈ mkEntries false dr, e.status ≠ "OnDuty" := by
  intro e he
  by_cases hdp : 0 < dr
  · simp [mkEntries, hdp] at he
    rcases he with rfl | rfl | rfl <;> simp
  · simp [mkEntries, hdp] at he
    rcases he with rfl | rfl <;> simp

lemma mkEntries_onduty_shape (b : Bool) (dr : ℚ) :
    ∀ e ∈ mkEntries b dr, e.status = "OnDuty" → e.start = 0 ∧ e.end_ = 1 := by
  intro e he hst
  cases b
  · exact absurd hst (mkEntries_no_onduty dr e he)
  · by_cases hdp : 0 < dr
    · simp [mkEntries, hdp] at he
      rcases he with rfl | rfl | rfl | rfl <;> simp_all
    · simp [mkEntries, hdp] at he
      rcases he with rfl | rfl | rfl <;> simp_all

/-! Properties of the per-day loop. -/

lemma genLoop_nonpos (n : ℕ) (b : Bool) (r : ℚ) (hr : ¬ 0 < r) :
    genLoop n b r = some [] := by
  cases n <;> simp [genLoop, hr]

lemma genLoop_none_of_small (r : ℚ) (h0 : 0 < r) (h2 : r ≤ 1/200) :
    ∀ n b, genLoop n b r = none := by
  have hrd : round2 (min 11 r) = 0 := by
    rw [min_eq_right (by linarith)]
    exact round2_eq_zero r h0 h2
  intro n
  induction n with
  | zero => intro b; simp [genLoop, h0]
  | succ n ih =>
    intro b
    have hsnd : (generateDay b r).2 = r := by
      rw [generateDay_snd, hrd]; ring
    simp [genLoop, h0, hsnd, ih false]

lemma generate_daily_logs_eq (fuel : ℕ) (d c : ℚ) :
    generate_daily_logs fuel d c =
      if max 0 (70 - c) ≤ 1 then some []
      else genLoop fuel true (cappedNeed d c) := rfl

lemma genLoop_false_shape (n : ℕ) :
    ∀ (r : ℚ) (days), genLoop n false r = some days →
      ∀ day ∈ days, ∃ dr : ℚ, 0 ≤ dr ∧ dr ≤ 11 ∧ day = mkEntries false dr := by
  induction n with
  | zero =>
    intro r days h day hday
    by_cases hr : 0 < r
    · simp [genLoop, hr] at h
    · simp [genLoop, hr] at h
      subst h
      simp at hday
  | succ n ih =>
    intro r days h day hday
    by_cases hr : 0 < r
    · simp [genLoop, hr] at h
      obtain ⟨rest, hrest, hcons⟩ := h
      subst hcons
      rcases List.mem_cons.mp hday with rfl | hmem
      · exact ⟨round2 (min 11 r), round2_nonneg _ (le_min (by norm_num) hr.le),
          round2_le_eleven _ (min_le_left _ _), generateDay_fst false r hr⟩
      · exact ih _ rest hrest day hmem
    · simp [genLoop, hr] at h
      subst h
      simp at hday

lemma genLoop_shape (n : ℕ) (b : Bool) (r : ℚ) (days)
    (h : genLoop n b r = some days) :
    ∀ day ∈ days, ∃ (b' : Bool) (dr : ℚ), 0 ≤ dr ∧ dr ≤ 11 ∧
      day = mkEntries b' dr := by
  cases b
  · intro day hday
    obtain ⟨dr, h1, h2, h3⟩ := genLoop_false_shape n r days h day hday
    exact ⟨false, dr, h1, h2, h3⟩
  · cases n with
    | zero =>
      intro day hday
      by_cases hr : 0 < r
      · simp [genLoop, hr] at h
      · simp [genLoop, hr] at h
        subst h
        simp at hday
    | succ n =>
      intro day hday
      by_cases hr : 0 < r
      · simp [genLoop, hr] at h
        obtain ⟨rest, hrest, hcons⟩ := h
        subst hcons
        rcases List.mem_cons.mp hday with rfl | hmem
        · exact ⟨true, round2 (min 11 r), round2_nonneg _ (le_min (by norm_num) hr.le),
            round2_le_eleven _ (min_le_left _ _), generateDay_fst true r hr⟩
        · obtain ⟨dr, h1, h2, h3⟩ := genLoop_false_shape n _ rest hrest day hmem
          exact ⟨false, dr, h1, h2, h3⟩
      · simp [genLoop, hr] at h
        subst h
        simp at hday

lemma genLoop_tail_shape (n : ℕ) (b : Bool) (r : ℚ) (days)
    (h : genLoop n b r = some days) :
    ∀ day ∈ days.tail, ∃ dr : ℚ, 0 ≤ dr ∧ dr ≤ 11 ∧
      day = mkEntries false dr := by
  cases n with
  | zero =>
    intro day hday
    by_cases hr : 0 < r
    · simp [genLoop, hr] at h
    · simp [genLoop, hr] at h
      subst h
      simp at hday
  | succ n =>
    intro day hday
    by_cases hr : 0 < r
    · simp [genLoop, hr] at h
      obtain ⟨rest, hrest, hcons⟩ := h
      subst hcons
      exact genLoop_false_shape n _ rest hrest day (by simpa using hday)
    · simp [genLoop, hr] at h
      subst h
      simp at hday

lemma genLoop_length (n : ℕ) :
    ∀ (b : Bool) (r : ℚ) (days) (k : ℕ),
      genLoop n b r = some days → r ≤ 11 * k → days.length ≤ k := by
  induction n with
  | zero =>
    intro b r days k h hk
    by_cases hr : 0 < r
    · simp [genLoop, hr] at h
    · simp [genLoop, hr] at h
      subst h
      simp
  | succ n ih =>
    intro b r days k h hk
    by_cases hr : 0 < r
    · simp [genLoop, hr] at h
      obtain ⟨rest, hrest, hcons⟩ := h
      subst hcons
      have hk1 : 1 ≤ k := by
        rcases Nat.eq_zero_or_pos k with rfl | h1
        · exfalso
          norm_num at hk
          linarith
        · exact h1
      rcases le_or_lt 11 r with h11 | h11
      · have hdr : round2 (min 11 r) = 11 := by
          rw [min_eq_left h11]
          exact round2_eleven
        have hsnd : (generateDay b r).2 = r - 11 := by
          rw [generateDay_snd, hdr]
        rw [hsnd] at hrest
        have hcast : ((k - 1 : ℕ) : ℚ) = (k : ℚ) - 1 := by
          push_cast [Nat.cast_sub hk1]
          ring
        have hrec : rest.length ≤ k - 1 :=
          ih false (r - 11) rest (k - 1) hrest (by rw [hcast]; linarith)
        simp only [List.length_cons]
        omega
      · set dr := round2 (min 11 r) with hdrdef
        have hdrr : dr = round2 r := by rw [hdrdef, min_eq_right h11.le]
        have hsnd : (generateDay b r).2 = r - dr := generateDay_snd b r
        rw [hsnd] at hrest
        rcases le_or_lt (r - dr) 0 with hr' | hr'
        · rw [genLoop_nonpos n false _ (not_lt.mpr hr')] at hrest
          have hre : rest = [] := by simpa using hrest.symm
          subst hre
          simpa using hk1
        · have hsmall : r - dr ≤ 1/200 := by
            have := le_round2 r
            rw [hdrr]
            linarith
          rw [genLoop_none_of_small (r - dr) hr' hsmall n false] at hrest
          exact absurd hrest (by simp)
    · simp [genLoop, hr] at h
      subst h
      simp

lemma genLoop_sum (n : ℕ) :
    ∀ (b : Bool) (r : ℚ) (days),
      genLoop n b r = some days → 0 < r →
      r ≤ sumDriving days ∧ sumDriving days ≤ r + 1/200 := by
  induction n with
  | zero =>
    intro b r days h hr
    simp [genLoop, hr] at h
  | succ n ih =>
    intro b r days h hr
    simp [genLoop, hr] at h
    obtain ⟨rest, hrest, hcons⟩ := h
    subst hcons
    have hmin0 : (0:ℚ) ≤ min 11 r := le_min (by norm_num) hr.le
    set dr := round2 (min 11 r) with hdrdef
    have hdr0 : 0 ≤ dr := round2_nonneg _ hmin0
    have hdrle : dr ≤ r + 1/200 := by
      have h1 := round2_le (min 11 r)
      have h2 : min 11 r ≤ r := min_le_right _ _
      rw [hdrdef]
      linarith
    have hfst : (generateDay b r).1 = mkEntries b dr := generateDay_fst b r hr
    have hsnd : (generateDay b r).2 = r - dr := generateDay_snd b r
    have hdd : drivingDur (generateDay b r).1 = dr := by
      rw [hfst]
      exact mkEntries_drivingDur b dr hdr0
    have hsplit : sumDriving ((generateDay b r).1 :: rest) =
        dr + sumDriving rest := by
      simp [sumDriving, hdd]
    rw [hsnd] at hrest
    rw [hsplit]
    rcases lt_or_le 0 (r - dr) with hr' | hr'
    · obtain ⟨ih1, ih2⟩ := ih false (r - dr) rest hrest hr'
      constructor <;> linarith
    · rw [genLoop_nonpos n false _ (not_lt.mpr hr')] at hrest
      have hre : rest = [] := by simpa using hrest.symm
      subst hre
      simp [sumDriving]
      constructor <;> linarith

/-! Claim theorems. -/

/-- C1 (code bug in the source): the per-day loop does NOT terminate for
every valid input.  At `distance_miles = 0.01`, `cycle_used = 0` the
driving requirement is `1/5000` h; `round(1/5000, 2) = 0`, so the counter
never decreases and no amount of fuel makes the loop finish. -/
theorem generate_daily_logs_nonterminating :
    ∀ fuel : ℕ, generate_daily_logs fuel (1/100) 0 = none := by
  intro fuel
  rw [generate_daily_logs_eq, if_neg (by norm_num)]
  have hcap : cappedNeed (1/100) 0 = 1/5000 := by
    norm_num [cappedNeed]
  rw [hcap]
  exact genLoop_none_of_small (1/5000) (by norm_num) (by norm_num) fuel true

/-- C3: when `70 - cycle_hours_used ≤ 1` the scheduler returns the empty
day sequence — a normal value, not an error — for every distance and any
fuel (the function is total here, so the loop also terminates). -/
theorem empty_schedule_of_low_available (fuel : ℕ) (d c : ℚ)
    (hc : 70 - c ≤ 1) : generate_daily_logs fuel d c = some [] := by
  have h : max (0:ℚ) (70 - c) ≤ 1 := max_le (by norm_num) hc
  rw [generate_daily_logs_eq, if_pos h]

/-- C8: a zero-distance trip produces the empty schedule for every
`cycle_hours_used ∈ [0,70]` and any fuel: no day is ever emitted when the
remaining driving requirement is zero. -/
theorem zero_distance_empty_schedule (fuel : ℕ) (c : ℚ)
    (h0 : 0 ≤ c) (h70 : c ≤ 70) :
    generate_daily_logs fuel 0 c = some [] := by
  rw [generate_daily_logs_eq]
  by_cases hc : max 0 (70 - c) ≤ 1
  · rw [if_pos hc]
  · rw [if_neg hc]
    have h1 : ¬ (0 < (0:ℚ) / 50) := by norm_num
    have h2 : ¬ (max (0:ℚ) (70 - c) < (0:ℚ) / 50 + 0) := by
      push_neg
      have := le_max_left (0:ℚ) (70 - c)
      linarith
    have hcap : cappedNeed 0 c = 0 := by
      simp only [cappedNeed, if_neg h1, if_neg h2]
      norm_num
    rw [hcap]
    exact genLoop_nonpos fuel true 0 (by norm_num)

/-- C4: every Day of a returned schedule partitions [0,24]: its first
segment starts at hour 0, consecutive segments abut, the last segment
ends at hour 24, and the segment durations sum to exactly 24. -/
theorem day_segments_partition (fuel : ℕ) (d c : ℚ) (days)
    (hd : 0 ≤ d) (hc0 : 0 ≤ c) (hc70 : c ≤ 70)
    (h : generate_daily_logs fuel d c = some days) :
    ∀ day ∈ days, chainB 0 day = true ∧ sumDur day = 24 := by
  intro day hday
  rw [generate_daily_logs_eq] at h
  by_cases hcb : max 0 (70 - c) ≤ 1
  · rw [if_pos hcb] at h
    have he : days = [] := by simpa using h.symm
    subst he
    simp at hday
  · rw [if_neg hcb] at h
    obtain ⟨b', dr, h0, h11, rfl⟩ := genLoop_shape fuel true _ days h day hday
    exact ⟨mkEntries_chainB b' dr h0, mkEntries_sumDur b' dr h0⟩

/-- C6: no Day of a returned schedule has a Driving segment longer than
11 hours, and every returned Day contains a Sleeper segment of exactly
10 hours ending at hour 24. -/
theorem driving_le_eleven_and_sleeper (fuel : ℕ) (d c : ℚ) (days)
    (hd : 0 ≤ d) (hc0 : 0 ≤ c) (hc70 : c ≤ 70)
    (h : generate_daily_logs fuel d c = some days) :
    ∀ day ∈ days,
      (∀ e ∈ day, e.status = "Driving" → e.end_ - e.start ≤ 11) ∧
      ∃ e ∈ day, e.status = "Sleeper" ∧ e.end_ - e.start = 10 ∧
        e.end_ = 24 := by
  intro day hday
  rw [generate_daily_logs_eq] at h
  by_cases hcb : max 0 (70 - c) ≤ 1
  · rw [if_pos hcb] at h
    have he : days = [] := by simpa using h.symm
    subst he
    simp at hday
  · rw [if_neg hcb] at h
    obtain ⟨b', dr, h0, h11, rfl⟩ := genLoop_shape fuel true _ days h day hday
    exact ⟨mkEntries_driving_le b' dr h11, mkEntries_sleeper b' dr⟩

/-- C7: only the first Day of a returned schedule may contain an OnDuty
segment, and when present it occupies exactly [0,1); every later Day has
no OnDuty segment at all. -/
theorem onduty_first_day_only (fuel : ℕ) (d c : ℚ) (days)
    (hd : 0 ≤ d) (hc0 : 0 ≤ c) (hc70 : c ≤ 70)
    (h : generate_daily_logs fuel d c = some days) :
    (∀ e ∈ days.headD [], e.status = "OnDuty" → e.start = 0 ∧ e.end_ = 1) ∧
    (∀ day ∈ days.tail, ∀ e ∈ day, e.status ≠ "OnDuty") := by
  rw [generate_daily_logs_eq] at h
  by_cases hcb : max 0 (70 - c) ≤ 1
  · rw [if_pos hcb] at h
    have he : days = [] := by simpa using h.symm
    subst he
    constructor <;> simp
  · rw [if_neg hcb] at h
    constructor
    · intro e he hst
      cases days with
      | nil => simp at he
      | cons d0 rest =>
        obtain ⟨b', dr, h0, h11, hdeq⟩ :=
          genLoop_shape fuel true _ _ h d0 (List.mem_cons_self d0 rest)
        rw [List.headD_cons, hdeq] at he
        exact mkEntries_onduty_shape b' dr e he hst
    · intro day hday e he
      obtain ⟨dr, h0, h11, hdeq⟩ :=
        genLoop_tail_shape fuel true _ days h day hday
      rw [hdeq] at he
      exact mkEntries_no_onduty dr e he

/-- C2: with a usable budget (`available > 1`), when positive driving is
requested and `driving_needed + 1` exceeds the budget, the total is capped
to `available - 1` and the function still returns normally; and in all
cases the total Driving time of the returned schedule equals the possibly
capped requirement within 0.01 h. -/
theorem driving_sum_matches_capped (fuel : ℕ) (d c : ℚ) (days)
    (hd : 0 ≤ d) (hc : 1 < 70 - c)
    (h : generate_daily_logs fuel d c = some days) :
    (0 < d / 50 → 70 - c < d / 50 + 1 → cappedNeed d c = (70 - c) - 1) ∧
    |sumDriving days - cappedNeed d c| ≤ 1/100 := by
  have hmax : max (0:ℚ) (70 - c) = 70 - c := max_eq_right (by linarith)
  constructor
  · intro hpos hover
    have hcond : max (0:ℚ) (70 - c) < d / 50 + (if 0 < d / 50 then (1:ℚ) else 0) := by
      rw [if_pos hpos, hmax]
      exact hover
    simp only [cappedNeed, if_pos hcond]
    rw [hmax, max_eq_right (by linarith : (0:ℚ) ≤ 70 - c - 1)]
  · rw [generate_daily_logs_eq, if_neg (by rw [hmax]; linarith)] at h
    have hR0 : 0 ≤ cappedNeed d c := by
      by_cases hdp : 0 < d / 50
      · simp only [cappedNeed, if_pos hdp]
        split_ifs
        · exact le_max_left _ _
        · exact div_nonneg hd (by norm_num)
      · simp only [cappedNeed, if_neg hdp]
        split_ifs
        · exact le_max_left _ _
        · exact div_nonneg hd (by norm_num)
    rcases lt_or_le 0 (cappedNeed d c) with hpos | hz
    · obtain ⟨h1, h2⟩ := genLoop_sum fuel true _ days h hpos
      rw [abs_le]
      constructor <;> linarith
    · have hz' : cappedNeed d c = 0 := le_antisymm hz hR0
      rw [hz'] at h ⊢
      rw [genLoop_nonpos fuel true 0 (by norm_num)] at h
      have he : days = [] := by simpa using h.symm
      subst he
      simp [sumDriving]

/-- C10 (amended): a returned schedule has at most 7 Days, its total
Driving time never exceeds the capped budget `max 0 (available - 1)` by
more than the 0.005 h rounding slack, and each Day carries at most 11
Driving hours. -/
theorem schedule_at_most_seven_days (fuel : ℕ) (d c : ℚ) (days)
    (hd : 0 ≤ d) (hc0 : 0 ≤ c) (hc70 : c ≤ 70)
    (h : generate_daily_logs fuel d c = some days) :
    days.length ≤ 7 ∧
    sumDriving days ≤ max 0 (max 0 (70 - c) - 1) + 1/200 ∧
    ∀ day ∈ days, drivingDur day ≤ 11 := by
  rw [generate_daily_logs_eq] at h
  by_cases hcb : max 0 (70 - c) ≤ 1
  · rw [if_pos hcb] at h
    have he : days = [] := by simpa using h.symm
    subst he
    refine ⟨by simp, ?_, by simp⟩
    have h0 := le_max_left (0:ℚ) (max 0 (70 - c) - 1)
    simp [sumDriving]
    linarith
  · rw [if_neg hcb] at h
    have hav1 : 1 < max 0 (70 - c) := not_le.mp hcb
    have hav70 : max 0 (70 - c) ≤ 70 := max_le (by norm_num) (by linarith)
    have hcap69 : cappedNeed d c ≤ 69 := by
      by_cases hdp : 0 < d / 50
      · simp only [cappedNeed, if_pos hdp]
        by_cases hov : max 0 (70 - c) < d / 50 + 1
        · rw [if_pos hov]
          exact max_le (by norm_num) (by linarith)
        · rw [if_neg hov]
          push_neg at hov
          linarith
      · simp only [cappedNeed, if_neg hdp]
        by_cases hov : max 0 (70 - c) < d / 50 + 0
        · rw [if_pos hov]
          exact max_le (by norm_num) (by linarith)
        · rw [if_neg hov]
          have := not_lt.mp hdp
          linarith
    have hcaple : cappedNeed d c ≤ max 0 (max 0 (70 - c) - 1) := by
      by_cases hdp : 0 < d / 50
      · simp only [cappedNeed, if_pos hdp]
        by_cases hov : max 0 (70 - c) < d / 50 + 1
        · rw [if_pos hov]
        · rw [if_neg hov]
          push_neg at hov
          exact le_trans (by linarith) (le_max_right (0:ℚ) (max 0 (70 - c) - 1))
      · simp only [cappedNeed, if_neg hdp]
        by_cases hov : max 0 (70 - c) < d / 50 + 0
        · rw [if_pos hov]
        · rw [if_neg hov]
          exact le_trans (not_lt.mp hdp) (le_max_left _ _)
    have hlen : days.length ≤ 7 := by
      apply genLoop_length fuel true (cappedNeed d c) days 7 h
      push_cast
      linarith
    have hper : ∀ day ∈ days, drivingDur day ≤ 11 := by
      intro day hday
      obtain ⟨b', dr, h0, h11, rfl⟩ := genLoop_shape fuel true _ days h day hday
      rw [mkEntries_drivingDur b' dr h0]
      exact h11
    refine ⟨hlen, ?_, hper⟩
    rcases lt_or_le 0 (cappedNeed d c) with hpos | hz
    · obtain ⟨h1, h2⟩ := genLoop_sum fuel true _ days h hpos
      linarith
    · rw [genLoop_nonpos fuel true _ (not_lt.mpr hz)] at h
      have he : days = [] := by simpa using h.symm
      subst he
      have h0 := le_max_left (0:ℚ) (max 0 (70 - c) - 1)
      simp [sumDriving]
      linarith

/-- C5: the stop planner returns exactly `2 + ⌊distance/1000⌋` stop
descriptors; the first is the Pickup descriptor, the second the Dropoff
descriptor, followed by the fuel stops labeled "Fuel Stop 1",
"Fuel Stop 2", … in ascending order. -/
theorem calculate_stops_count_and_order (coords : List (ℚ × ℚ)) (d : ℚ)
    (hd : 0 ≤ d) :
    (((calculate_stops coords d).length : ℤ) = 2 + ⌊d / 1000⌋) ∧
    ((calculate_stops coords d).getD 0 ⟨"", "", 0, 0⟩).type = "pickup" ∧
    ((calculate_stops coords d).getD 1 ⟨"", "", 0, 0⟩).type = "dropoff" ∧
    ∀ i : ℕ, i < (⌊d / 1000⌋).toNat →
      ((calculate_stops coords d).getD (i + 2) ⟨"", "", 0, 0⟩).type = "fuel" ∧
      ((calculate_stops coords d).getD (i + 2) ⟨"", "", 0, 0⟩).name =
        "Fuel Stop " ++ toString (i + 1) := by
  have hnn : 0 ≤ ⌊d / 1000⌋ := Int.floor_nonneg.mpr (div_nonneg hd (by norm_num))
  refine ⟨?_, ?_, ?_, ?_⟩
  · simp [calculate_stops]
    rw [sup_eq_left.mpr hnn]
    ring
  · simp [calculate_stops]
  · simp [calculate_stops]
  · intro i hi
    simp only [calculate_stops, List.cons_append, List.nil_append]
    rw [List.getD_cons_succ, List.getD_cons_succ]
    have hlen : i < ((List.range (⌊d / 1000⌋).toNat).map
        (fun i => (⟨"fuel", "Fuel Stop " ++ toString (i + 1),
          (coords.getD 1 (0, 0)).2, (coords.getD 1 (0, 0)).1⟩ : RouteStop))).length := by
      simpa using hi
    rw [List.getD_eq_getElem _ _ hlen]
    simp

/-- C9: every Fuel stop descriptor carries the pickup coordinate: its
latitude and longitude equal those of the Pickup descriptor (the first
stop of the returned list). -/
theorem fuel_stops_pin_pickup_coordinate (coords : List (ℚ × ℚ)) (d : ℚ)
    (hd : 1000 ≤ d) :
    ∀ s ∈ calculate_stops coords d, s.type = "fuel" →
      s.lat = ((calculate_stops coords d).getD 0 ⟨"", "", 0, 0⟩).lat ∧
      s.lng = ((calculate_stops coords d).getD 0 ⟨"", "", 0, 0⟩).lng := by
  intro s hs hf
  simp [calculate_stops] at hs
  rcases hs with rfl | rfl | ⟨i, hi, rfl⟩
  · simp at hf
  · simp at hf
  · constructor <;> simp [calculate_stops]

/-! Concrete runs used by the witnesses. -/

/-- Day produced for a 400-mile trip on an empty cycle (8 h of driving):
the concrete scenario of the spec. -/
def day400 : List LogEntry :=
  [⟨0, 1, "OnDuty", 3⟩, ⟨1, 9, "Driving", 2⟩,
   ⟨9, 14, "OffDuty", 0⟩, ⟨14, 24, "Sleeper", 1⟩]

lemma eval400 : generate_daily_logs 3 400 0 = some [day400] := by
  norm_num [generate_daily_logs, genLoop, generateDay, round2, rndHalfEven,
    STATUS_Y_POSITIONS, day400]

/-- Day produced for a 400-mile trip with 67 cycle hours already used:
the driving requirement is capped to `available - 1 = 2` hours. -/
def day400c67 : List LogEntry :=
  [⟨0, 1, "OnDuty", 3⟩, ⟨1, 3, "Driving", 2⟩,
   ⟨3, 14, "OffDuty", 0⟩, ⟨14, 24, "Sleeper", 1⟩]

lemma eval400c67 : generate_daily_logs 2 400 67 = some [day400c67] := by
  norm_num [generate_daily_logs, genLoop, generateDay, round2, rndHalfEven,
    STATUS_Y_POSITIONS, day400c67]

/-! Witnesses and counterexample. -/

/-- Witness for C2 at distance 400, cycle_used 67 (the cap is active:
8 + 1 > 3). -/
theorem driving_sum_matches_capped_witness :
    (0 < (400:ℚ) / 50 → 70 - 67 < (400:ℚ) / 50 + 1 →
      cappedNeed 400 67 = (70 - 67) - 1) ∧
    |sumDriving [day400c67] - cappedNeed 400 67| ≤ 1/100 :=
  driving_sum_matches_capped 2 400 67 [day400c67] (by norm_num) (by norm_num)
    eval400c67

/-- Witness for C3 at distance 500, cycle_used 69.5. -/
theorem empty_schedule_of_low_available_witness :
    generate_daily_logs 4 500 (139/2) = some [] :=
  empty_schedule_of_low_available 4 500 (139/2) (by norm_num)

/-- Witness for C4 on the 400-mile schedule. -/
theorem day_segments_partition_witness :
    chainB 0 day400 = true ∧ sumDur day400 = 24 :=
  day_segments_partition 3 400 0 [day400] (by norm_num) (by norm_num)
    (by norm_num) eval400 day400 (by simp)

/-- Witness for C5 at distance 1200 (one fuel stop). -/
theorem calculate_stops_count_and_order_witness :
    (((calculate_stops [((0:ℚ), (0:ℚ)), (10, 20), (30, 40)] 1200).length : ℤ) =
      2 + ⌊(1200:ℚ) / 1000⌋) ∧
    ((calculate_stops [((0:ℚ), (0:ℚ)), (10, 20), (30, 40)] 1200).getD 0
      ⟨"", "", 0, 0⟩).type = "pickup" ∧
    ((calculate_stops [((0:ℚ), (0:ℚ)), (10, 20), (30, 40)] 1200).getD 1
      ⟨"", "", 0, 0⟩).type = "dropoff" ∧
    ∀ i : ℕ, i < (⌊(1200:ℚ) / 1000⌋).toNat →
      ((calculate_stops [((0:ℚ), (0:ℚ)), (10, 20), (30, 40)] 1200).getD (i + 2)
        ⟨"", "", 0, 0⟩).type = "fuel" ∧
      ((calculate_stops [((0:ℚ), (0:ℚ)), (10, 20), (30, 40)] 1200).getD (i + 2)
        ⟨"", "", 0, 0⟩).name = "Fuel Stop " ++ toString (i + 1) :=
  calculate_stops_count_and_order [((0:ℚ), (0:ℚ)), (10, 20), (30, 40)] 1200
    (by norm_num)

/-- Witness for C6 on the 400-mile schedule. -/
theorem driving_le_eleven_and_sleeper_witness :
    (∀ e ∈ day400, e.status = "Driving" → e.end_ - e.start ≤ 11) ∧
    ∃ e ∈ day400, e.status = "Sleeper" ∧ e.end_ - e.start = 10 ∧
      e.end_ = 24 :=
  driving_le_eleven_and_sleeper 3 400 0 [day400] (by norm_num) (by norm_num)
    (by norm_num) eval400 day400 (by simp)

/-- Witness for C7 on the 400-mile schedule. -/
theorem onduty_first_day_only_witness :
    (∀ e ∈ ([day400] : List (List LogEntry)).headD [],
      e.status = "OnDuty" → e.start = 0 ∧ e.end_ = 1) ∧
    (∀ day ∈ ([day400] : List (List LogEntry)).tail,
      ∀ e ∈ day, e.status ≠ "OnDuty") :=
  onduty_first_day_only 3 400 0 [day400] (by norm_num) (by norm_num)
    (by norm_num) eval400

/-- Witness for C8 at cycle_used 0. -/
theorem zero_distance_empty_schedule_witness :
    generate_daily_logs 5 0 0 = some [] :=
  zero_distance_empty_schedule 5 0 (le_refl 0) (by norm_num)

/-- Witness for C9 at distance 2000: the first fuel stop carries the
pickup coordinate (latitude 20, longitude 10). -/
theorem fuel_stops_pin_pickup_coordinate_witness :
    (⟨"fuel", "Fuel Stop 1", 20, 10⟩ : RouteStop).lat =
      ((calculate_stops [((0:ℚ), (0:ℚ)), (10, 20), (30, 40)] 2000).getD 0
        ⟨"", "", 0, 0⟩).lat ∧
    (⟨"fuel", "Fuel Stop 1", 20, 10⟩ : RouteStop).lng =
      ((calculate_stops [((0:ℚ), (0:ℚ)), (10, 20), (30, 40)] 2000).getD 0
        ⟨"", "", 0, 0⟩).lng :=
  fuel_stops_pin_pickup_coordinate [((0:ℚ), (0:ℚ)), (10, 20), (30, 40)] 2000
    (by norm_num) ⟨"fuel", "Fuel Stop 1", 20, 10⟩
    (by
      simp [calculate_stops, List.range_succ]
      exact ⟨0, by norm_num, by decide⟩) rfl

/-- Witness for C10 on the 400-mile schedule. -/
theorem schedule_at_most_seven_days_witness :
    ([day400] : List (List LogEntry)).length ≤ 7 ∧
    sumDriving [day400] ≤ max 0 (max 0 (70 - 0) - 1) + 1/200 ∧
    ∀ day ∈ [day400], drivingDur day ≤ 11 :=
  schedule_at_most_seven_days 3 400 0 [day400] (by norm_num) (by norm_num)
    (by norm_num) eval400

/-- Counterexample for C10 as stated: at distance 4000 and cycle_used
1.001 the capped budget is `available - 1 = 67.999` h, but the rounded
last day makes the scheduled Driving total 68 h, exceeding it. -/
theorem schedule_driving_exceeds_available_sub_one :
    (generate_daily_logs 10 4000 (1001/1000)).isSome = true ∧
    max 0 (70 - 1001/1000) - 1 <
      sumDriving ((generate_daily_logs 10 4000 (1001/1000)).getD []) := by
  have h1 : ("OnDuty" : String) ≠ "Driving" := by decide
  have h2 : ("OffDuty" : String) ≠ "Driving" := by decide
  have h3 : ("Sleeper" : String) ≠ "Driving" := by decide
  norm_num [generate_daily_logs, genLoop, generateDay, round2, rndHalfEven,
    STATUS_Y_POSITIONS, sumDriving, drivingDur, h1, h2, h3]
